/-
Verification of the wf HTTP dispatch library (wf.go) against its
natural-language specification.

The Go source is shallowly embedded: pure helpers become Lean functions on
`List Char` / `String`, `time.Duration` becomes `Int` (nanoseconds),
`context.Context` becomes an inductive chain of deadline/value wrappers, and
`Web.ServeHTTP` becomes a pure function from a request description to the
ordered list of observable actions (header/status/body writes, log calls,
deadline settings, handler-capability invocations).
-/
import Mathlib

namespace Wf

/-! ## Go string helpers

`strings.Split(s, "/")`, `strings.Trim(s, "/")` and `strconv.Atoi` as used by
`ResourceWithIDs` (wf.go lines 134-174).  Strings are worked on as `List Char`
(`String.data`) so every definition evaluates in the kernel. -/

/-- `strings.Split(s, "/")`: split on every `'/'`; the empty string yields
`[""]`, adjacent separators yield empty fields. -/
def splitOnSlash : List Char → List (List Char)
  | [] => [[]]
  | c :: rest =>
    if c = '/' then [] :: splitOnSlash rest
    else
      match splitOnSlash rest with
      | [] => [[c]]
      | s :: ss => (c :: s) :: ss

/-- `strings.Trim(s, "/")`: drop leading and trailing `'/'` characters. -/
def trimSlashes (s : List Char) : List Char :=
  ((s.dropWhile (fun c => c = '/')).reverse.dropWhile (fun c => c = '/')).reverse

/-- Decimal digit value of a character, `none` if not in `'0'..'9'`. -/
def digitVal (c : Char) : Option Nat :=
  if '0' ≤ c ∧ c ≤ '9' then some (c.toNat - '0'.toNat) else none

/-- Value of a non-empty all-digit character run, `none` on the empty run or
any non-digit character (the syntax-error cases of `strconv.ParseUint`). -/
def digitsToNat : List Char → Option Nat
  | [] => none
  | [c] => digitVal c
  | c :: rest =>
    match digitVal c, digitsToNat rest with
    | some d, some n => some (d * 10 ^ rest.length + n)
    | _, _ => none

def maxInt64 : Int := 2 ^ 63 - 1

def minInt64 : Int := -(2 ^ 63)

/-- Whether the string carries a leading minus sign. -/
def isNegSign : List Char → Bool
  | '-' :: _ => true
  | _ => false

/-- The string with a leading `'+'` or `'-'` removed. -/
def stripSign : List Char → List Char
  | '-' :: rest => rest
  | '+' :: rest => rest
  | s => s

/-- `strconv.Atoi(s)` as `(value, err == nil)`: optional sign, then a
non-empty digit run; a syntax error returns `(0, false)`; a value outside the
64-bit signed range returns the clamped bound together with a range error,
exactly as `strconv.ParseInt` does. -/
def atoiResult (s : List Char) : Int × Bool :=
  match digitsToNat (stripSign s) with
  | none => (0, false)
  | some n =>
    if isNegSign s then
      if (n : Int) > 2 ^ 63 then (minInt64, false) else (-(n : Int), true)
    else
      if (n : Int) ≥ 2 ^ 63 then (maxInt64, false) else ((n : Int), true)

/-- `_, err := strconv.Atoi(s); err == nil` — the check done by the matcher. -/
def atoiOk (s : List Char) : Bool := (atoiResult s).2

/-- `num, _ := strconv.Atoi(s)` — the value kept by the extractor, error
discarded. -/
def atoiVal (s : List Char) : Int := (atoiResult s).1

/-! ## ResourceWithIDs (wf.go lines 134-174) -/

/-- The per-segment loop of the matcher closure `mh`: a non-empty specifier
must equal the path segment exactly, an empty specifier requires the segment
to parse under `strconv.Atoi`.  Called only after the length guard, so the
two lists run in lockstep. -/
def segsMatch : List String → List (List Char) → Bool
  | [], _ => true
  | part :: ps, subs =>
    match subs with
    | [] => false
    | sub :: ss =>
      (if part ≠ "" then decide (part.data = sub) else atoiOk sub) && segsMatch ps ss

/-- The matcher closure `mh` returned by `ResourceWithIDs(method, parts)`:
method equality, then split the slash-trimmed path, then the length guard,
then the per-segment checks. -/
def resourceWithIDsMatch (method : String) (parts : List String)
    (reqMethod : String) (reqPath : String) : Bool :=
  reqMethod == method &&
    (let subs := splitOnSlash (trimSlashes reqPath.data)
     subs.length == parts.length && segsMatch parts subs)

/-- The body of the extractor closure `pf`: walk `parts` by index, and at each
empty specifier read `subs[i]` — which panics (modelled as `none`) when the
index is out of range — keeping `num` from `num, _ := strconv.Atoi(subs[i])`.
A `some` result models the Go return `(ret, nil)`. -/
def segsExtract : List String → List (List Char) → Option (List Int)
  | [], _ => some []
  | part :: ps, subs =>
    if part = "" then
      match subs with
      | [] => none
      | sub :: ss => (segsExtract ps ss).map (fun t => atoiVal sub :: t)
    else segsExtract ps (subs.drop 1)

/-- The extractor closure `pf` returned by `ResourceWithIDs(method, parts)`:
re-split the slash-trimmed path and collect the integers at the empty
specifier positions; `none` models an index-out-of-range panic. -/
def resourceWithIDsParse (parts : List String) (path : String) : Option (List Int) :=
  segsExtract parts (splitOnSlash (trimSlashes path.data))

/-! ## Timeout resolution (wf.go lines 345-362) -/

/-- One millisecond in nanoseconds; `time.Duration` is an `int64` nanosecond
count, modelled as `Int`. -/
def millisecond : Int := 1000000

/-- `var timeout = 1000 * time.Millisecond` — the hardcoded process default. -/
def initialDefaultTimeout : Int := 1000 * millisecond

/-- `SetTimeout(duration)` simply stores its argument as the new process-wide
default, with no validation; this is the stored value after the call. -/
def SetTimeout (duration : Int) : Int := duration

/-- The `setting` computed by `withTimeout`: keep the process default unless
the handler's `TimeoutOptional()` is non-zero. -/
def effectiveTimeout (override : Int) (defaultTimeout : Int) : Int :=
  if override ≠ 0 then override else defaultTimeout

/-! ## Context model (wf.go lines 453-461, 355-362)

A `context.Context` is modelled as the chain of wrappers this library builds:
a base context, `context.WithTimeoutCause` layers carrying an absolute
deadline, and `context.WithValue` layers carrying a string key and a string
value (the only values the library ever attaches). -/

inductive Ctx where
  | background : Ctx
  | withDeadline (parent : Ctx) (deadline : Int) : Ctx
  | withValue (parent : Ctx) (key : String) (val : String) : Ctx
deriving DecidableEq, Repr

/-- `ctx.Value(key)`: the innermost value stored under `key`, `none` when the
chain holds no such key (Go returns an untyped `nil`). -/
def Ctx.valueGet : Ctx → String → Option String
  | .background, _ => none
  | .withDeadline parent _, key => parent.valueGet key
  | .withValue parent k v, key => if key = k then some v else parent.valueGet key

/-- `ctx.Deadline()`: the innermost deadline of the chain (`WithTimeoutCause`
always tightens, and this library attaches at most one deadline). -/
def Ctx.deadlineOf : Ctx → Option Int
  | .background => none
  | .withDeadline _ d => some d
  | .withValue parent _ _ => parent.deadlineOf

/-- Whether any layer of the chain stores a value under `key`. -/
def Ctx.hasKey : Ctx → String → Bool
  | .background, _ => false
  | .withDeadline parent _, key => parent.hasKey key
  | .withValue parent k _, key => key == k || parent.hasKey key

/-- `const ctxTokenKey = "token"` -/
def ctxTokenKey : String := "token"

/-- `AttachToken(ctx, token)`: `context.WithValue(ctx, ctxTokenKey, token)`. -/
def AttachToken (ctx : Ctx) (token : String) : Ctx :=
  .withValue ctx ctxTokenKey token

/-- `DetachToken(ctx)`: `ctx.Value(ctxTokenKey).(string)`.  The type
assertion panics when the lookup returns `nil`; `none` models that panic,
`some s` a normal return of `s`. -/
def DetachToken (ctx : Ctx) : Option String :=
  ctx.valueGet ctxTokenKey

/-! ## CodedError (wf.go lines 17-32, 449-451) -/

/-- `CodedError` pairs an HTTP status code with an underlying error, modelled
by its message string.  Codes are `Nat`: the library and `WriteHeader` only
ever see standard positive HTTP codes. -/
structure CodedError where
  code : Nat
  msg : String
deriving DecidableEq, Repr

/-- `(e CodedError) Error()`: `fmt.Sprintf("%d: %v", e.Code, e.Err.Error())`. -/
def CodedError.errorString (e : CodedError) : String :=
  toString e.code ++ ": " ++ e.msg

/-- `IsUserFault(httpStatusCode)`: `httpStatusCode/100 == 4`. -/
def IsUserFault (httpStatusCode : Nat) : Bool :=
  httpStatusCode / 100 == 4

/-! ## Dispatcher model (wf.go lines 328-447)

A request is the data `ServeHTTP` consumes: method, `URL.Path`, the `%v`
rendering of the URL, the `Origin` and `Token` headers, and the outcome of
`io.ReadAll(request.Body)` (bytes or an I/O error).  A handler is the record
of its five capabilities, with the opaque `any` request/response values as
type parameters `α`/`β`.  `serveHTTP` returns the ordered list of observable
actions taken on the writer, the logger and the connection. -/

structure Request where
  method : String
  urlPath : String
  urlString : String
  origin : String
  tokenHeader : String
  body : Except String (List Nat)
deriving Repr

structure DHandler (α β : Type) where
  matchReq : Request → Bool
  parse : List Nat → String → Except String α
  handle : Ctx → α → β × Option CodedError
  timeoutOptional : Int

structure Web (α β : Type) where
  handlers : List (DHandler α β)
  allowCORS : Bool

/-- One observable action of `ServeHTTP`. -/
inductive Ev (β : Type) where
  | setHeader (key : String) (value : String)
  | writeHeader (status : Nat)
  | writeBody (body : String)
  | logWarn (msg : String)
  | logError (msg : String)
  | setReadDeadline (deadline : Int)
  | setWriteDeadline (deadline : Int)
  | readBody
  | parseCalled
  | handleCalled
  | responseCalled (output : β)
deriving DecidableEq, Repr

/-- `strings.Join([GET, PUT, POST, DELETE], ",")` -/
def allowedMethods : String := "GET,PUT,POST,DELETE"

/-- `strings.Join([Content-Type, Token], ",")` -/
def allowedHeaders : String := "Content-Type,Token"

/-- `var writeDeadlineExtension = 100 * time.Millisecond` -/
def writeDeadlineExtension : Int := 100 * millisecond

/-- `(w *Web) findHandler(req)`: linear scan of `w.handlers`, first handler
whose `Match` returns true, `nil` (`none`) otherwise. -/
def Web.findHandler {α β : Type} (w : Web α β) (req : Request) : Option (DHandler α β) :=
  w.handlers.find? (fun h => h.matchReq req)

/-- The absolute deadline of the context built by `withTimeout`: request
start time plus the effective timeout. -/
def dispatchDeadline {α β : Type} (now : Int) (h : DHandler α β) (defaultTimeout : Int) : Int :=
  now + effectiveTimeout h.timeoutOptional defaultTimeout

/-- The context handed to `Handle`: the request context (no deadline of its
own under `net/http` defaults) wrapped by `withTimeout`, then by
`AttachToken` with the `Token` header. -/
def dispatchCtx {α β : Type} (now : Int) (h : DHandler α β) (defaultTimeout : Int)
    (req : Request) : Ctx :=
  AttachToken (.withDeadline .background (dispatchDeadline now h defaultTimeout)) req.tokenHeader

/-- A stand-in for `fmt.Sprintf`'s `%v` rendering of `*http.Request` in the
parse-failure diagnostic; no claim depends on its exact text. -/
def requestRender (req : Request) : String :=
  req.method ++ " " ++ req.urlString

/-- The actions of `ServeHTTP` from `io.ReadAll` onwards: the read outcome,
parse, handle, and the error/respond endings, in source order. -/
def serveAfterDeadlines {α β : Type} (h : DHandler α β) (defaultTimeout : Int) (now : Int)
    (req : Request) : List (Ev β) :=
  let ctx := dispatchCtx now h defaultTimeout req
  match req.body with
  | .error _ =>
    [Ev.logError "unexpected failure on read", Ev.writeHeader 500]
  | .ok inputData =>
    Ev.parseCalled ::
    match h.parse inputData req.urlPath with
    | .error err =>
      [Ev.logWarn "bad input format", Ev.writeHeader 400,
       Ev.writeBody ("can not parse req " ++ requestRender req ++ " as " ++ err)]
    | .ok input =>
      Ev.handleCalled ::
      match h.handle ctx input with
      | (output, e) =>
        match e with
        | some e =>
          (if IsUserFault e.code then Ev.logWarn ("resp " ++ e.errorString)
           else Ev.logError ("resp " ++ e.errorString)) ::
          [Ev.writeHeader e.code, Ev.writeBody e.msg]
        | none => [Ev.responseCalled output]

/-- The tail of `ServeHTTP` once a handler `h` has been selected: read and
write connection deadlines first, then body read and the rest, in source
order. -/
def serveMatched {α β : Type} (h : DHandler α β) (defaultTimeout : Int) (now : Int)
    (req : Request) : List (Ev β) :=
  Ev.setReadDeadline (dispatchDeadline now h defaultTimeout) ::
  Ev.setWriteDeadline (dispatchDeadline now h defaultTimeout + writeDeadlineExtension) ::
  Ev.readBody ::
  serveAfterDeadlines h defaultTimeout now req

/-- `(w *Web) ServeHTTP(writer, request)` as the ordered list of observable
actions: the CORS block, then handler lookup with the 406 ending, then
`serveMatched`. -/
def serveHTTP {α β : Type} (w : Web α β) (defaultTimeout : Int) (now : Int)
    (req : Request) : List (Ev β) :=
  (if w.allowCORS then
    Ev.setHeader "Access-Control-Allow-Origin" req.origin ::
    (if req.method = "OPTIONS" then
      [Ev.logWarn "allow cors",
       Ev.setHeader "Access-Control-Allow-Methods" allowedMethods,
       Ev.setHeader "Access-Control-Allow-Headers" allowedHeaders,
       Ev.setHeader "Access-Control-Max-Age" "3600",
       Ev.writeHeader 202]
    else
      serveRest w defaultTimeout now req)
  else serveRest w defaultTimeout now req)
where
  serveRest (w : Web α β) (defaultTimeout : Int) (now : Int) (req : Request) : List (Ev β) :=
    match w.findHandler req with
    | none =>
      [Ev.writeHeader 406,
       Ev.logWarn "unmatched request",
       Ev.writeBody ("unsupported request on " ++ req.method ++ " " ++ req.urlString)]
    | some h => serveMatched h defaultTimeout now req

/-! ## Event-stream transport (wf.go lines 271-307) -/

structure MessageEvent where
  TypeOptional : String
  Lines : List String
deriving DecidableEq, Repr

/-- The bytes `ServerSentEventsHandler.Response` writes for one event before
flushing: the optional `event:` line, one `data:` line per content line, and
the terminating blank line. -/
def writeEventChunks (me : MessageEvent) : List String :=
  (if me.TypeOptional ≠ "" then ["event: " ++ me.TypeOptional ++ "\n"] else [])
    ++ me.Lines.map (fun line => "data: " ++ line ++ "\n")
    ++ ["\n"]

/-- The write loop of `ServerSentEventsHandler.Response` over the events
drained from the channel, assuming every flush succeeds: one output string
per flush, in channel order. -/
def sseResponseFlushes : List MessageEvent → List String
  | [] => []
  | me :: rest => String.join (writeEventChunks me) :: sseResponseFlushes rest

/-- Spec-side description of the extraction result, following the spec's
words: "re-splits the path and returns the ordered list of integers found at
placeholder positions".  Compared against `segsExtract`. -/
def extractSpec (parts : List String) (subs : List (List Char)) : List Int :=
  (parts.zip subs).filterMap (fun ps => if ps.1 = "" then some (atoiVal ps.2) else none)

/-! ## Concrete fixtures for witnesses and counterexamples -/

def alwaysMatchHandler : DHandler Unit Unit where
  matchReq := fun _ => true
  parse := fun _ _ => .ok ()
  handle := fun _ _ => ((), none)
  timeoutOptional := 0

def neverMatchHandler : DHandler Unit Unit where
  matchReq := fun _ => false
  parse := fun _ _ => .ok ()
  handle := fun _ _ => ((), none)
  timeoutOptional := 0

def sampleCodedError : CodedError where
  code := 404
  msg := "missing"

def codedErrorHandler : DHandler Unit Unit where
  matchReq := fun _ => true
  parse := fun _ _ => .ok ()
  handle := fun _ _ => ((), some sampleCodedError)
  timeoutOptional := 0

def sampleRequest : Request where
  method := "GET"
  urlPath := "/users/1"
  urlString := "/users/1"
  origin := ""
  tokenHeader := "tok"
  body := .ok []

def optionsRequest : Request where
  method := "OPTIONS"
  urlPath := "/x"
  urlString := "/x"
  origin := "http://a.com"
  tokenHeader := ""
  body := .ok []

def corsWeb : Web Unit Unit where
  handlers := [neverMatchHandler]
  allowCORS := true

def plainWeb : Web Unit Unit where
  handlers := [neverMatchHandler]
  allowCORS := false

def overlapWeb : Web Unit Unit where
  handlers := [alwaysMatchHandler, alwaysMatchHandler]
  allowCORS := false

def codedWeb : Web Unit Unit where
  handlers := [codedErrorHandler]
  allowCORS := false

def simpleWeb : Web Unit Unit where
  handlers := [alwaysMatchHandler]
  allowCORS := false

/-! ## Theorems -/

/-- Helper: `List.find?` returns the element at index `i` when it satisfies
the predicate and every earlier element does not. -/
theorem find_eq_get_of_first {γ : Type} (p : γ → Bool) :
    ∀ (l : List γ) (i : Nat) (hi : i < l.length),
      p (l.get ⟨i, hi⟩) = true →
      (∀ j (hj : j < i), p (l.get ⟨j, Nat.lt_trans hj hi⟩) = false) →
      l.find? p = some (l.get ⟨i, hi⟩)
  | [], i, hi, _, _ => absurd hi (Nat.not_lt_zero i)
  | c :: t, 0, _, hp, _ => by
    have hc : p c = true := hp
    simp [List.find?, hc]
  | c :: t, i + 1, hi, hp, hmin => by
    have hc : p c = false := hmin 0 (Nat.succ_pos i)
    have ih := find_eq_get_of_first p t i (Nat.lt_of_succ_lt_succ hi) hp
      (fun j hj => hmin (j + 1) (Nat.succ_lt_succ hj))
    simp [List.find?, hc, ih]

/-- C3: with a per-handler override of 0 the effective timeout is the process
default `D`; with a non-zero override `T` it is `T`, regardless of `D`. -/
theorem c3_timeout_override (D T : Int) (hT : T ≠ 0) :
    effectiveTimeout 0 D = D ∧ effectiveTimeout T D = T := by
  constructor
  · simp [effectiveTimeout]
  · simp [effectiveTimeout, hT]

theorem c3_witness :
    effectiveTimeout 0 7 = 7 ∧ effectiveTimeout 3 7 = 3 :=
  c3_timeout_override 7 3 (by decide)

/-- C4 counterexample: `SetTimeout` accepts 0 without validation, and with a
zero per-handler override the effective timeout is then 0, not strictly
positive. -/
theorem c4_counterexample :
    effectiveTimeout 0 (SetTimeout 0) = 0 ∧ ¬ (0 : Int) < effectiveTimeout 0 (SetTimeout 0) := by
  decide

/-- C4 (amended): the effective timeout is strictly positive provided the
configuration is — a non-zero override must be positive and, when the
override is zero, the process default must be positive; the hardcoded
initial default of 1000 ms is itself positive. -/
theorem c4_positive_when_configured_positive (T D : Int)
    (h0 : T = 0 → 0 < D) (h1 : T ≠ 0 → 0 < T) :
    0 < effectiveTimeout T D ∧ 0 < initialDefaultTimeout := by
  constructor
  · by_cases hT : T = 0
    · simpa [effectiveTimeout, hT] using h0 hT
    · simpa [effectiveTimeout, hT] using h1 hT
  · decide

theorem c4_witness :
    0 < effectiveTimeout 0 initialDefaultTimeout ∧ 0 < initialDefaultTimeout :=
  c4_positive_when_configured_positive 0 initialDefaultTimeout
    (fun _ => by decide) (fun h => absurd rfl h)

/-- C5: the matcher/extractor pair of `ResourceWithIDs(GET, ["users", "",
"items", ""])` on the claimed concrete requests: `/users/123/items/456`
matches and extracts `[123, 456]`, a trailing slash changes nothing,
a non-numeric placeholder, an extra segment, or method POST do not match. -/
theorem c5_resource_matcher_examples :
    resourceWithIDsMatch "GET" ["users", "", "items", ""] "GET" "/users/123/items/456" = true
    ∧ resourceWithIDsParse ["users", "", "items", ""] "/users/123/items/456" = some [123, 456]
    ∧ resourceWithIDsMatch "GET" ["users", "", "items", ""] "GET" "/users/123/items/456/" = true
    ∧ resourceWithIDsParse ["users", "", "items", ""] "/users/123/items/456/" = some [123, 456]
    ∧ resourceWithIDsMatch "GET" ["users", "", "items", ""] "GET" "/users/abc/items/456" = false
    ∧ resourceWithIDsMatch "GET" ["users", "", "items", ""] "GET" "/users/123/items/456/extra" = false
    ∧ resourceWithIDsMatch "GET" ["users", "", "items", ""] "POST" "/users/123/items/456" = false := by
  decide

/-- C6 counterexample: the extractor is not total — on `/users/123`, whose
placeholder index 3 is beyond the two split segments, it faults with an
index-out-of-range panic (`none`) instead of terminating normally; and a
placeholder that fails `strconv.Atoi` with a range error yields the clamped
64-bit bound, not the zero value. -/
theorem c6_counterexample :
    resourceWithIDsParse ["users", "", "items", ""] "/users/123" = none
    ∧ atoiOk "99999999999999999999".data = false
    ∧ resourceWithIDsParse [""] "/99999999999999999999" = some [9223372036854775807] := by
  decide

/-- Helper: when every empty-specifier index lies below the segment count,
the extractor loop never indexes out of range and returns exactly the
placeholder values described by `extractSpec`.  Literal specifiers are
skipped without any bounds access, so trailing literals beyond a short
path's end are harmless. -/
theorem segsExtract_eq_extractSpec (parts : List String) :
    ∀ subs : List (List Char),
      (∀ i (hi : i < parts.length), parts.get ⟨i, hi⟩ = "" → i < subs.length) →
      segsExtract parts subs = some (extractSpec parts subs) := by
  induction parts with
  | nil =>
    intro subs _
    simp [segsExtract, extractSpec]
  | cons p ps ih =>
    intro subs h
    by_cases hp : p = ""
    · have h0 : 0 < subs.length := h 0 (by simp) (by simpa using hp)
      match subs, h0 with
      | sub :: ss, _ =>
        have hshift : ∀ i (hi : i < ps.length), ps.get ⟨i, hi⟩ = "" → i < ss.length := by
          intro i hi hEq
          have hlt := h (i + 1) (Nat.succ_lt_succ hi) (by simpa using hEq)
          simp only [List.length_cons] at hlt
          omega
        simp only [segsExtract, hp, if_pos rfl, extractSpec, List.zip_cons_cons,
          List.filterMap_cons]
        rw [ih ss hshift]
        simp [extractSpec]
    · have hshift : ∀ i (hi : i < ps.length), ps.get ⟨i, hi⟩ = "" → i < (subs.drop 1).length := by
        intro i hi hEq
        have hlt := h (i + 1) (Nat.succ_lt_succ hi) (by simpa using hEq)
        simp only [List.length_drop]
        omega
      cases subs with
      | nil =>
        simp only [segsExtract, if_neg hp, extractSpec, List.zip_nil_right, List.filterMap_nil,
          List.drop_nil]
        have hrec := ih [] (by simpa using hshift)
        simpa [extractSpec] using hrec
      | cons sub ss =>
        simp only [segsExtract, if_neg hp, extractSpec, List.zip_cons_cons,
          List.filterMap_cons, if_neg hp, List.drop_one, List.tail_cons]
        exact ih ss (by simpa using hshift)

/-- Helper: when some empty-specifier index reaches the segment count, the
extractor loop indexes `subs` out of range at that placeholder and panics. -/
theorem segsExtract_eq_none_of_oob (parts : List String) :
    ∀ subs : List (List Char),
      (∃ i, ∃ hi : i < parts.length, parts.get ⟨i, hi⟩ = "" ∧ subs.length ≤ i) →
      segsExtract parts subs = none := by
  induction parts with
  | nil =>
    intro subs hex
    obtain ⟨i, hi, _, _⟩ := hex
    exact absurd hi (Nat.not_lt_zero i)
  | cons p ps ih =>
    intro subs hex
    obtain ⟨i, hi, hEq, hle⟩ := hex
    match i with
    | 0 =>
      have hp : p = "" := by simpa using hEq
      have hsubs : subs = [] := List.length_eq_zero.mp (Nat.le_zero.mp hle)
      subst hsubs
      simp [segsExtract, hp]
    | j + 1 =>
      have hj : j < ps.length := Nat.lt_of_succ_lt_succ hi
      have hEq2 : ps.get ⟨j, hj⟩ = "" := by simpa using hEq
      by_cases hp : p = ""
      · cases subs with
        | nil => simp [segsExtract, hp]
        | cons sub ss =>
          have hrec : segsExtract ps ss = none := by
            refine ih ss ⟨j, hj, hEq2, ?_⟩
            simp only [List.length_cons] at hle
            omega
          simp [segsExtract, hp, hrec]
      · have hrec : segsExtract ps (subs.drop 1) = none := by
          refine ih (subs.drop 1) ⟨j, hj, hEq2, ?_⟩
          simp only [List.length_drop]
          omega
        simp only [List.drop_one] at hrec
        simp [segsExtract, hp, hrec]

/-- C6 (amended): whenever every placeholder position (the index of each
empty specifier) lies below the slash-trimmed segment count — which covers
every path the paired predicate accepts, and also shorter paths whose
specifiers beyond the path's end are all literals — the extractor terminates
normally with a nil error, yielding per placeholder the `strconv.Atoi` value
with the error discarded, the zero value for a syntactically unparseable
segment; when some placeholder position reaches the segment count, the
extractor instead faults with an index-out-of-range panic. -/
theorem c6_extraction_domain (parts : List String) (path : String)
    (h : ∀ i (hi : i < parts.length), parts.get ⟨i, hi⟩ = "" →
      i < (splitOnSlash (trimSlashes path.data)).length) :
    resourceWithIDsParse parts path
      = some (extractSpec parts (splitOnSlash (trimSlashes path.data)))
    ∧ (∀ s : List Char, digitsToNat (stripSign s) = none → atoiVal s = 0)
    ∧ ∀ (parts2 : List String) (subs2 : List (List Char)),
        (∃ i, ∃ hi : i < parts2.length, parts2.get ⟨i, hi⟩ = "" ∧ subs2.length ≤ i) →
        segsExtract parts2 subs2 = none := by
  refine ⟨?_, ?_, ?_⟩
  · unfold resourceWithIDsParse
    exact segsExtract_eq_extractSpec parts _ h
  · intro s hs
    simp [atoiVal, atoiResult, hs]
  · intro parts2 subs2 hex
    exact segsExtract_eq_none_of_oob parts2 subs2 hex

theorem c6_witness :
    resourceWithIDsParse ["users", "", "items"] "/users/5"
      = some (extractSpec ["users", "", "items"]
          (splitOnSlash (trimSlashes "/users/5".data)))
    ∧ (∀ s : List Char, digitsToNat (stripSign s) = none → atoiVal s = 0)
    ∧ ∀ (parts2 : List String) (subs2 : List (List Char)),
        (∃ i, ∃ hi : i < parts2.length, parts2.get ⟨i, hi⟩ = "" ∧ subs2.length ≤ i) →
        segsExtract parts2 subs2 = none :=
  c6_extraction_domain ["users", "", "items"] "/users/5" (by decide)

/-- C8: the event-stream transport writes, in production order, for each
event an `event:` line iff its type label is non-empty, then one `data:`
line per content line in order, then a blank line, flushing once per event;
on the concrete events `{type:"", lines:["a"]}` then `{type:"note",
lines:["b","c"]}` the flushed outputs are exactly `"data: a\n\n"` then
`"event: note\ndata: b\ndata: c\n\n"`. -/
theorem c8_sse_framing :
    sseResponseFlushes [⟨"", ["a"]⟩, ⟨"note", ["b", "c"]⟩]
      = ["data: a\n\n", "event: note\ndata: b\ndata: c\n\n"]
    ∧ (∀ evs : List MessageEvent,
        sseResponseFlushes evs = evs.map (fun me => String.join (writeEventChunks me)))
    ∧ (∀ xs ys : List MessageEvent,
        sseResponseFlushes (xs ++ ys) = sseResponseFlushes xs ++ sseResponseFlushes ys) := by
  refine ⟨by decide, ?_, ?_⟩
  · intro evs
    induction evs with
    | nil => rfl
    | cons me rest ih => simp [sseResponseFlushes, ih]
  · intro xs ys
    induction xs with
    | nil => rfl
    | cons me rest ih => simp [sseResponseFlushes, ih]

/-- C10: the token carrier round-trips — `DetachToken` after `AttachToken`
returns exactly the attached string, the empty string included; on a context
that never passed through `AttachToken` (no layer stores the token key),
`DetachToken` finds no stored value and the string type assertion panics
instead of returning a default. -/
theorem c10_token_roundtrip (ctx ctx2 : Ctx) (t : String)
    (h : ctx2.hasKey ctxTokenKey = false) :
    DetachToken (AttachToken ctx t) = some t ∧ DetachToken ctx2 = none := by
  constructor
  · simp [DetachToken, AttachToken, Ctx.valueGet]
  · induction ctx2 with
    | background => rfl
    | withDeadline parent d ih =>
      simp only [Ctx.hasKey] at h
      simpa [DetachToken, Ctx.valueGet] using ih h
    | withValue parent k v ih =>
      simp only [Ctx.hasKey, Bool.or_eq_false_iff] at h
      have hk : ctxTokenKey ≠ k := by
        intro hkk
        simp [hkk] at h
      simp only [DetachToken, Ctx.valueGet, if_neg hk]
      exact ih h.2

theorem c10_witness :
    DetachToken (AttachToken Ctx.background "") = some ""
    ∧ DetachToken (Ctx.withDeadline Ctx.background 5) = none :=
  c10_token_roundtrip Ctx.background (Ctx.withDeadline Ctx.background 5) "" (by decide)

/-- C1 counterexample: with CORS enabled, an OPTIONS request is answered with
status 202 by the preflight short-circuit before any matching, so a request
on which no registered handler's Match returns true does not get the claimed
406. -/
theorem c1_counterexample :
    neverMatchHandler.matchReq optionsRequest = false
    ∧ corsWeb.handlers = [neverMatchHandler]
    ∧ Ev.writeHeader (β := Unit) 202 ∈ serveHTTP corsWeb initialDefaultTimeout 0 optionsRequest
    ∧ Ev.writeHeader (β := Unit) 406 ∉ serveHTTP corsWeb initialDefaultTimeout 0 optionsRequest := by
  refine ⟨rfl, rfl, ?_, ?_⟩ <;>
    simp [serveHTTP, corsWeb, optionsRequest]

/-- C1 (amended): for every request that is not a CORS preflight, if no
registered handler's Match returns true then `ServeHTTP` writes status 406
with a diagnostic body naming the request's method and URL (after the 406
status and a warning log), and never invokes Parse, Handle, or Response on
any handler. -/
theorem c1_unmatched_406 {α β : Type} (w : Web α β) (defaultTimeout now : Int) (req : Request)
    (hnone : ∀ h ∈ w.handlers, h.matchReq req = false)
    (hcors : w.allowCORS = true → req.method ≠ "OPTIONS") :
    serveHTTP w defaultTimeout now req
      = (if w.allowCORS then [Ev.setHeader "Access-Control-Allow-Origin" req.origin] else [])
        ++ [Ev.writeHeader 406, Ev.logWarn "unmatched request",
            Ev.writeBody ("unsupported request on " ++ req.method ++ " " ++ req.urlString)]
    ∧ Ev.parseCalled ∉ serveHTTP w defaultTimeout now req
    ∧ Ev.handleCalled ∉ serveHTTP w defaultTimeout now req
    ∧ ∀ b : β, Ev.responseCalled b ∉ serveHTTP w defaultTimeout now req := by
  have hfind : w.findHandler req = none := by
    rw [Web.findHandler, List.find?_eq_none]
    intro x hx
    simp [hnone x hx]
  have heq : serveHTTP w defaultTimeout now req
      = (if w.allowCORS then [Ev.setHeader "Access-Control-Allow-Origin" req.origin] else [])
        ++ [Ev.writeHeader 406, Ev.logWarn "unmatched request",
            Ev.writeBody ("unsupported request on " ++ req.method ++ " " ++ req.urlString)] := by
    by_cases hc : w.allowCORS
    · have hm := hcors hc
      simp [serveHTTP, serveHTTP.serveRest, hfind, hc, hm]
    · simp [serveHTTP, serveHTTP.serveRest, hfind, hc]
  refine ⟨heq, ?_, ?_, ?_⟩ <;> rw [heq] <;>
    by_cases hc : w.allowCORS <;> simp [hc]

theorem c1_witness :
    serveHTTP plainWeb initialDefaultTimeout 0 sampleRequest
      = (if plainWeb.allowCORS then
          [Ev.setHeader "Access-Control-Allow-Origin" sampleRequest.origin] else [])
        ++ [Ev.writeHeader 406, Ev.logWarn "unmatched request",
            Ev.writeBody ("unsupported request on "
              ++ sampleRequest.method ++ " " ++ sampleRequest.urlString)]
    ∧ Ev.parseCalled ∉ serveHTTP plainWeb initialDefaultTimeout 0 sampleRequest
    ∧ Ev.handleCalled ∉ serveHTTP plainWeb initialDefaultTimeout 0 sampleRequest
    ∧ ∀ b : Unit, Ev.responseCalled b ∉ serveHTTP plainWeb initialDefaultTimeout 0 sampleRequest :=
  c1_unmatched_406 plainWeb initialDefaultTimeout 0 sampleRequest
    (by intro h hh; simp only [plainWeb, List.mem_singleton] at hh; rw [hh]; rfl)
    (by decide)

/-- C2: the handler selected by `findHandler` is the first in registration
order whose Match returns true — if the handler at index `i` matches and
every earlier one does not, it is selected — and selection is deterministic:
two lookups of the same request over the same handler list agree. -/
theorem c2_first_match_wins {α β : Type} (w : Web α β) (req : Request)
    (i : Nat) (hi : i < w.handlers.length)
    (hmatch : (w.handlers.get ⟨i, hi⟩).matchReq req = true)
    (hfirst : ∀ j (hj : j < i), (w.handlers.get ⟨j, Nat.lt_trans hj hi⟩).matchReq req = false) :
    w.findHandler req = some (w.handlers.get ⟨i, hi⟩)
    ∧ ∀ o₁ o₂ : Option (DHandler α β),
        o₁ = w.findHandler req → o₂ = w.findHandler req → o₁ = o₂ := by
  constructor
  · exact find_eq_get_of_first (fun h => h.matchReq req) w.handlers i hi hmatch hfirst
  · intro o₁ o₂ h₁ h₂
    rw [h₁, h₂]

theorem c2_witness :
    overlapWeb.findHandler sampleRequest
      = some (overlapWeb.handlers.get ⟨0, by decide⟩)
    ∧ ∀ o₁ o₂ : Option (DHandler Unit Unit),
        o₁ = overlapWeb.findHandler sampleRequest →
        o₂ = overlapWeb.findHandler sampleRequest → o₁ = o₂ :=
  c2_first_match_wins overlapWeb sampleRequest 0 (by decide) rfl
    (fun j hj => absurd hj (Nat.not_lt_zero j))

/-- C7: when Handle returns a non-nil Coded Error with code `C` and message
`M`, `ServeHTTP` writes status `C` and a body exactly equal to `M`, logs at
warning severity precisely when `C / 100 = 4` and at error severity
otherwise, and never invokes Response. -/
theorem c7_coded_error_response {α β : Type} (w : Web α β) (defaultTimeout now : Int)
    (req : Request) (h : DHandler α β) (data : List Nat) (input : α) (out : β) (e : CodedError)
    (hcors : w.allowCORS = true → req.method ≠ "OPTIONS")
    (hfind : w.findHandler req = some h)
    (hbody : req.body = .ok data)
    (hparse : h.parse data req.urlPath = .ok input)
    (hhandle : h.handle (dispatchCtx now h defaultTimeout req) input = (out, some e)) :
    serveHTTP w defaultTimeout now req
      = (if w.allowCORS then [Ev.setHeader "Access-Control-Allow-Origin" req.origin] else [])
        ++ [Ev.setReadDeadline (dispatchDeadline now h defaultTimeout),
            Ev.setWriteDeadline (dispatchDeadline now h defaultTimeout + writeDeadlineExtension),
            Ev.readBody, Ev.parseCalled, Ev.handleCalled,
            (if IsUserFault e.code then Ev.logWarn ("resp " ++ e.errorString)
             else Ev.logError ("resp " ++ e.errorString)),
            Ev.writeHeader e.code, Ev.writeBody e.msg]
    ∧ (IsUserFault e.code = true ↔ e.code / 100 = 4)
    ∧ ∀ b : β, Ev.responseCalled b ∉ serveHTTP w defaultTimeout now req := by
  have htail : serveAfterDeadlines h defaultTimeout now req
      = [Ev.parseCalled, Ev.handleCalled,
         (if IsUserFault e.code then Ev.logWarn ("resp " ++ e.errorString)
          else Ev.logError ("resp " ++ e.errorString)),
         Ev.writeHeader e.code, Ev.writeBody e.msg] := by
    rw [serveAfterDeadlines, hbody]
    simp [hparse, hhandle]
  have heq : serveHTTP w defaultTimeout now req
      = (if w.allowCORS then [Ev.setHeader "Access-Control-Allow-Origin" req.origin] else [])
        ++ [Ev.setReadDeadline (dispatchDeadline now h defaultTimeout),
            Ev.setWriteDeadline (dispatchDeadline now h defaultTimeout + writeDeadlineExtension),
            Ev.readBody, Ev.parseCalled, Ev.handleCalled,
            (if IsUserFault e.code then Ev.logWarn ("resp " ++ e.errorString)
             else Ev.logError ("resp " ++ e.errorString)),
            Ev.writeHeader e.code, Ev.writeBody e.msg] := by
    by_cases hc : w.allowCORS
    · have hm := hcors hc
      simp [serveHTTP, serveHTTP.serveRest, hfind, hc, hm, serveMatched, htail]
    · simp [serveHTTP, serveHTTP.serveRest, hfind, hc, serveMatched, htail]
  refine ⟨heq, by simp [IsUserFault], ?_⟩
  intro b
  rw [heq]
  by_cases hu : IsUserFault e.code <;> by_cases hc : w.allowCORS <;> simp [hu, hc]

theorem c7_witness :
    serveHTTP codedWeb initialDefaultTimeout 0 sampleRequest
      = (if codedWeb.allowCORS then
          [Ev.setHeader "Access-Control-Allow-Origin" sampleRequest.origin] else [])
        ++ [Ev.setReadDeadline (dispatchDeadline 0 codedErrorHandler initialDefaultTimeout),
            Ev.setWriteDeadline
              (dispatchDeadline 0 codedErrorHandler initialDefaultTimeout
                + writeDeadlineExtension),
            Ev.readBody, Ev.parseCalled, Ev.handleCalled,
            (if IsUserFault sampleCodedError.code then
              Ev.logWarn ("resp " ++ sampleCodedError.errorString)
             else Ev.logError ("resp " ++ sampleCodedError.errorString)),
            Ev.writeHeader sampleCodedError.code, Ev.writeBody sampleCodedError.msg]
    ∧ (IsUserFault sampleCodedError.code = true ↔ sampleCodedError.code / 100 = 4)
    ∧ ∀ b : Unit, Ev.responseCalled b ∉ serveHTTP codedWeb initialDefaultTimeout 0 sampleRequest :=
  c7_coded_error_response codedWeb initialDefaultTimeout 0 sampleRequest codedErrorHandler
    [] () () sampleCodedError (by decide) rfl rfl rfl rfl

/-- C9: for every dispatched request with a matched handler, `ServeHTTP`
sets the connection read deadline to exactly the context's absolute deadline
and the write deadline to that deadline plus the fixed 100 ms extension,
before the body is read (and hence before Parse or Handle can run). -/
theorem c9_deadline_propagation {α β : Type} (w : Web α β) (defaultTimeout now : Int)
    (req : Request) (h : DHandler α β)
    (hcors : w.allowCORS = true → req.method ≠ "OPTIONS")
    (hfind : w.findHandler req = some h) :
    (serveHTTP w defaultTimeout now req
      = (if w.allowCORS then [Ev.setHeader "Access-Control-Allow-Origin" req.origin] else [])
        ++ Ev.setReadDeadline (dispatchDeadline now h defaultTimeout)
          :: Ev.setWriteDeadline (dispatchDeadline now h defaultTimeout + writeDeadlineExtension)
          :: Ev.readBody :: serveAfterDeadlines h defaultTimeout now req)
    ∧ (dispatchCtx now h defaultTimeout req).deadlineOf
        = some (dispatchDeadline now h defaultTimeout)
    ∧ writeDeadlineExtension = 100 * millisecond := by
  refine ⟨?_, by simp [dispatchCtx, AttachToken, Ctx.deadlineOf], rfl⟩
  by_cases hc : w.allowCORS
  · have hm := hcors hc
    simp [serveHTTP, serveHTTP.serveRest, hfind, hc, hm, serveMatched]
  · simp [serveHTTP, serveHTTP.serveRest, hfind, hc, serveMatched]

theorem c9_witness :
    (serveHTTP simpleWeb initialDefaultTimeout 0 sampleRequest
      = (if simpleWeb.allowCORS then
          [Ev.setHeader "Access-Control-Allow-Origin" sampleRequest.origin] else [])
        ++ Ev.setReadDeadline (dispatchDeadline 0 alwaysMatchHandler initialDefaultTimeout)
          :: Ev.setWriteDeadline
              (dispatchDeadline 0 alwaysMatchHandler initialDefaultTimeout
                + writeDeadlineExtension)
          :: Ev.readBody :: serveAfterDeadlines alwaysMatchHandler initialDefaultTimeout 0
            sampleRequest)
    ∧ (dispatchCtx 0 alwaysMatchHandler initialDefaultTimeout sampleRequest).deadlineOf
        = some (dispatchDeadline 0 alwaysMatchHandler initialDefaultTimeout)
    ∧ writeDeadlineExtension = 100 * millisecond :=
  c9_deadline_propagation simpleWeb initialDefaultTimeout 0 sampleRequest alwaysMatchHandler
    (by decide) rfl

end Wf
